import Mathlib

/-!
Verification development for the robot task dispatcher (`src/main.rs`).

The program (module `idiomatic`) spawns one asynchronous lane per robot,
each fed by an unbounded FIFO channel.  A lane pops jobs one at a time,
validates the job's category against `task_config` (a map from category
name to a fixed-interval rate limiter), waits on the category's rate
limiter (`until_ready`), then on a global semaphore of capacity 3, and
finally calls `execute_task`.  The dispatcher sends the input batch into
the lanes in input order and panics at the first job naming an unknown
robot.

We embed the program as a labelled small-step transition system over an
explicit system state.  Awaits in the Rust code become interleaving
points: between any two steps of one lane, other lanes and the
dispatcher may step, and time may pass (action `tick`).  All times are
in milliseconds; the rate-limiter intervals from `task_config`
(5, 3, 2 seconds) and the simulated execution times of the three job
bodies (300, 700, 500 ms) are converted to that unit.  The trace field
records the observable lifecycle events of a run.
-/

/-- Simulated job body `clean_the_windows` (sleeps 300 ms, returns "Squeeesh").
The sleep is modelled by `taskDuration`; the value is the returned string. -/
def clean_the_windows (_task_id : Nat) (_robot_name : String) : String :=
  "Squeeesh"

/-- Simulated job body `water_the_plants` (sleeps 700 ms, returns "Blub"). -/
def water_the_plants (_task_id : Nat) (_robot_name : String) : String :=
  "Blub"

/-- Simulated job body `feed_the_cat` (sleeps 500 ms, returns "Meow"). -/
def feed_the_cat (_task_id : Nat) (_robot_name : String) : String :=
  "Meow"

/-- The execution facade `execute_task`: dispatches on the task name and
panics (modelled as `none`) on any unknown name. -/
def execute_task (task_name : String) (task_id : Nat) (robot_name : String) :
    Option String :=
  if task_name = "clean_the_windows" then some (clean_the_windows task_id robot_name)
  else if task_name = "water_the_plants" then some (water_the_plants task_id robot_name)
  else if task_name = "feed_the_cat" then some (feed_the_cat task_id robot_name)
  else none

/-- The `task_config` map of `idiomatic::solve`: each registered category
with its rate-limiter interval, in milliseconds (the source constructs
`ratelimiter_with_interval` with 5, 3 and 2 seconds respectively). -/
def taskConfig (c : String) : Option Nat :=
  if c = "clean_the_windows" then some 5000
  else if c = "water_the_plants" then some 3000
  else if c = "feed_the_cat" then some 2000
  else none

/-- Simulated execution time of each job body, in milliseconds. -/
def taskDuration (c : String) : Nat :=
  if c = "clean_the_windows" then 300
  else if c = "water_the_plants" then 700
  else if c = "feed_the_cat" then 500
  else 0

/-- The fixed robot pool of `idiomatic::solve`. -/
def robots : List String :=
  ["Dave", "Cris", "Andi", "Nick", "Phil", "Maxi"]

/-- Phase of one lane's loop body for the job currently being processed.
`gateWait` is the suspension at `until_ready`, `semWait` the suspension
at `sem.acquire`, `executing` the span of the `execute_task` call (the
permit is held exactly during this phase). -/
inductive Phase where
  | idle : Phase
  | gateWait : Nat → String → Phase
  | semWait : Nat → String → Phase
  | executing : Nat → String → Nat → Phase
deriving DecidableEq, Repr

/-- One robot's lane: the unbounded channel contents (FIFO, front is the
oldest element) and the loop phase. -/
structure Lane where
  inbox : List (Nat × String)
  phase : Phase
deriving DecidableEq, Repr

/-- Observable lifecycle events of a run, in chronological order. -/
inductive Event where
  | dispatched : String → Nat → String → Event
  | rejected : String → Nat → String → Event
  | gatePass : String → Nat → String → Nat → Event
  | executeStart : String → Nat → String → Nat → Event
  | executeEnd : String → Nat → String → Nat → Event
deriving DecidableEq, Repr

/-- Global system state: all lanes, the dispatcher's remaining input,
whether the dispatcher has panicked on an unknown robot, the semaphore's
free-permit count, the per-category rate-limiter state (earliest time
the next gate pass of that category may happen), the current time, and
the event trace. -/
structure Sys where
  lanes : String → Lane
  pending : List (Nat × String × String)
  dispatchFailed : Bool
  semAvail : Nat
  nextFree : String → Nat
  now : Nat
  trace : List Event

/-- Point update of the lane map. -/
def setLane (ls : String → Lane) (r : String) (l : Lane) : String → Lane :=
  fun r' => if r' = r then l else ls r'

/-- Initial state for a given input batch: empty idle lanes, 3 semaphore
permits, all rate limiters immediately ready, time 0. -/
def init (batch : List (Nat × String × String)) : Sys :=
  { lanes := fun _ => ⟨[], .idle⟩
    pending := batch
    dispatchFailed := false
    semAvail := 3
    nextFree := fun _ => 0
    now := 0
    trace := [] }

/-- One iteration of the dispatch loop: send the next pending job into
its robot's channel, or panic (set `dispatchFailed`) if the robot has no
lane.  After a panic the loop performs no further sends. -/
def stepDispatch (s : Sys) : Sys :=
  match s.pending with
  | [] => s
  | (id, robot, task) :: rest =>
    if s.dispatchFailed then s
    else if robots.contains robot then
      { s with pending := rest
               lanes := setLane s.lanes robot
                 ⟨(s.lanes robot).inbox ++ [(id, task)], (s.lanes robot).phase⟩
               trace := s.trace ++ [.dispatched robot id task] }
    else { s with dispatchFailed := true }

/-- The `rx.recv().await` of a lane followed by the synchronous category
validation: pop the oldest queued job; if its category has no entry in
`task_config`, report it and stay idle (the `let ... else continue`
branch), otherwise move to the rate-limiter wait. -/
def stepRecv (s : Sys) (r : String) : Sys :=
  match (s.lanes r).phase, (s.lanes r).inbox with
  | .idle, (id, task) :: rest =>
    match taskConfig task with
    | none =>
      { s with lanes := setLane s.lanes r ⟨rest, .idle⟩
               trace := s.trace ++ [.rejected r id task] }
    | some _ =>
      { s with lanes := setLane s.lanes r ⟨rest, .gateWait id task⟩ }
  | _, _ => s

/-- Completion of `rt.until_ready().await`: enabled once the category's
interval constraint is satisfied; consumes the slot by pushing the
category's next-free time one interval into the future. -/
def stepGate (s : Sys) (r : String) : Sys :=
  match (s.lanes r).phase with
  | .gateWait id task =>
    match taskConfig task with
    | some interval =>
      if s.nextFree task ≤ s.now then
        { s with lanes := setLane s.lanes r ⟨(s.lanes r).inbox, .semWait id task⟩
                 nextFree := fun c => if c = task then s.now + interval else s.nextFree c
                 trace := s.trace ++ [.gatePass r id task s.now] }
      else s
    | none => s
  | _ => s

/-- Completion of `sem.acquire().await` and the immediately following
invocation of `execute_task`: takes one permit and starts executing. -/
def stepAcquire (s : Sys) (r : String) : Sys :=
  match (s.lanes r).phase with
  | .semWait id task =>
    if 0 < s.semAvail then
      { s with semAvail := s.semAvail - 1
               lanes := setLane s.lanes r ⟨(s.lanes r).inbox, .executing id task s.now⟩
               trace := s.trace ++ [.executeStart r id task s.now] }
    else s
  | _ => s

/-- Return of `execute_task` and the end of the loop-body scope, where
the permit binding is dropped: enabled once the simulated execution time
has elapsed; returns the permit and goes back to the channel pop. -/
def stepFinish (s : Sys) (r : String) : Sys :=
  match (s.lanes r).phase with
  | .executing id task start =>
    if start + taskDuration task ≤ s.now then
      { s with semAvail := s.semAvail + 1
               lanes := setLane s.lanes r ⟨(s.lanes r).inbox, .idle⟩
               trace := s.trace ++ [.executeEnd r id task s.now] }
    else s
  | _ => s

/-- Scheduler actions: one dispatcher iteration, the four await/return
points of a lane, and the passage of time. -/
inductive Act where
  | dispatch : Act
  | recv : String → Act
  | gate : String → Act
  | acquire : String → Act
  | finish : String → Act
  | tick : Nat → Act
deriving DecidableEq, Repr

/-- One labelled step of the whole system.  Actions whose guard is not
enabled leave the state unchanged, so an action list denotes one
possible interleaving of the lanes, the dispatcher and the clock. -/
def step (s : Sys) (a : Act) : Sys :=
  match a with
  | .dispatch => stepDispatch s
  | .recv r => stepRecv s r
  | .gate r => stepGate s r
  | .acquire r => stepAcquire s r
  | .finish r => stepFinish s r
  | .tick d => { s with now := s.now + d }

/-- Run a list of scheduler actions from a state. -/
def run (s : Sys) (acts : List Act) : Sys :=
  acts.foldl step s

/-- Jobs a lane has consumed, in order: each popped job ends up either
rejected (unknown category) or started; the pair is its id and category. -/
def doneKey (r : String) : Event → Option (Nat × String)
  | .rejected r' id c => if r' = r then some (id, c) else none
  | .executeStart r' id c _ => if r' = r then some (id, c) else none
  | _ => none

/-- Consumed jobs of robot r, in trace order. -/
def doneFor (tr : List Event) (r : String) : List (Nat × String) :=
  tr.filterMap (doneKey r)

/-- Selector for the execute starts of robot r. -/
def startKey (r : String) : Event → Option (Nat × String)
  | .executeStart r' id c _ => if r' = r then some (id, c) else none
  | _ => none

/-- Jobs robot r has started executing (the execute_task invocations of
its lane), in order. -/
def startsFor (tr : List Event) (r : String) : List (Nat × String) :=
  tr.filterMap (startKey r)

/-- Selector for the rejections reported by robot r. -/
def rejectKey (r : String) : Event → Option (Nat × String)
  | .rejected r' id c => if r' = r then some (id, c) else none
  | _ => none

/-- Jobs robot r has rejected as unknown-category, in order. -/
def rejectsFor (tr : List Event) (r : String) : List (Nat × String) :=
  tr.filterMap (rejectKey r)

/-- Selector for the jobs dispatched into robot r's channel. -/
def dispKey (r : String) : Event → Option (Nat × String)
  | .dispatched r' id c => if r' = r then some (id, c) else none
  | _ => none

/-- Jobs sent into robot r's channel, in order. -/
def dispatchedFor (tr : List Event) (r : String) : List (Nat × String) :=
  tr.filterMap (dispKey r)

/-- Selector for all dispatched jobs, as batch triples. -/
def dispJob : Event → Option (Nat × String × String)
  | .dispatched r id c => some (id, r, c)
  | _ => none

/-- All jobs the dispatcher has sent, in order, as batch triples. -/
def dispatchedJobs (tr : List Event) : List (Nat × String × String) :=
  tr.filterMap dispJob

/-- Selector for the gate-pass times of a category. -/
def gateTimeKey (c : String) : Event → Option Nat
  | .gatePass _ _ c' t => if c' = c then some t else none
  | _ => none

/-- Times at which the rate limiter of category c admitted a caller,
across all robots, in trace order. -/
def gateTimes (tr : List Event) (c : String) : List Nat :=
  tr.filterMap (gateTimeKey c)

/-- Selector for the execute-start times of a category. -/
def startTimeKey (c : String) : Event → Option Nat
  | .executeStart _ _ c' t => if c' = c then some t else none
  | _ => none

/-- Times at which an execution of category c started (execute_task was
invoked, right after semaphore admission), across all robots. -/
def startTimes (tr : List Event) (c : String) : List Nat :=
  tr.filterMap (startTimeKey c)

/-- All execute starts of the whole run. -/
def allStarts (tr : List Event) : List (String × Nat × String × Nat) :=
  tr.filterMap fun e =>
    match e with
    | .executeStart r id c t => some (r, id, c, t)
    | _ => none

/-- Selector for the semaphore events of robot r: true for a start
(permit taken), false for an end (permit returned). -/
def seKey (r : String) : Event → Option Bool
  | .executeStart r' _ _ _ => if r' = r then some true else none
  | .executeEnd r' _ _ _ => if r' = r then some false else none
  | _ => none

/-- Alternation skeleton of robot r's start and end events. -/
def seFor (tr : List Event) (r : String) : List Bool :=
  tr.filterMap (seKey r)

/-- n complete acquire/release rounds. -/
def rounds : Nat → List Bool
  | 0 => []
  | n + 1 => true :: false :: rounds n

/-- The job (if any) a lane has popped from its channel but not yet
handed to execute_task. -/
def inFlight : Phase → List (Nat × String)
  | .idle => []
  | .gateWait id c => [(id, c)]
  | .semWait id c => [(id, c)]
  | .executing _ _ _ => []

/-- Whether a phase is the execute_task span (permit held). -/
def isExecuting : Phase → Bool
  | .executing _ _ _ => true
  | _ => false

/-- Number of lanes currently inside execute_task, between semaphore
admission and completion. -/
def execCount (s : Sys) : Nat :=
  robots.countP fun r => isExecuting (s.lanes r).phase

/-- The whole batch has been dispatched and every lane has drained its
channel and returned to the channel pop: the run is over. -/
def drained (s : Sys) : Prop :=
  s.pending = [] ∧ ∀ r ∈ robots, (s.lanes r).inbox = [] ∧ (s.lanes r).phase = .idle

/-- The sub-batch of the input assigned to robot r, in input order,
as (id, category) pairs. -/
def batchFor (batch : List (Nat × String × String)) (r : String) :
    List (Nat × String) :=
  (batch.filter fun j => j.2.1 = r).map fun j => (j.1, j.2.2)

instance (s : Sys) : Decidable (drained s) := by
  unfold drained; infer_instance

/-- Boolean check that consecutive elements of a time list are at least
I apart. -/
def spacedBy (I : Nat) : List Nat → Bool
  | [] => true
  | [_] => true
  | a :: b :: rest => (a + I ≤ b : Bool) && spacedBy I (b :: rest)

@[simp] lemma setLane_self (ls : String → Lane) (r : String) (l : Lane) :
    setLane ls r l r = l := by
  simp [setLane]

lemma setLane_ne (ls : String → Lane) (r : String) (l : Lane) {r' : String}
    (h : r' ≠ r) : setLane ls r l r' = ls r' := by
  simp [setLane, h]

/-- Number of executing lanes of a lane map. -/
def execCountL (ls : String → Lane) : Nat :=
  robots.countP fun r => isExecuting (ls r).phase

lemma execCount_eq (s : Sys) : execCount s = execCountL s.lanes := rfl

lemma countP_setLane (l : List String) (hl : l.Nodup) (ls : String → Lane)
    (r : String) (v : Lane) (p : Lane → Bool) (hr : r ∈ l) :
    (if p (ls r) then 1 else 0) + l.countP (fun x => p (setLane ls r v x))
      = (if p v then 1 else 0) + l.countP (fun x => p (ls x)) := by
  induction l with
  | nil => cases hr
  | cons x xs ih =>
    rcases List.mem_cons.mp hr with hx | hx
    · subst hx
      have hnot : r ∉ xs := (List.nodup_cons.mp hl).1
      have hcong : xs.countP (fun y => p (setLane ls r v y)) = xs.countP (fun y => p (ls y)) := by
        apply List.countP_congr
        intro y hy
        have hyr : y ≠ r := fun hyx => hnot (hyx ▸ hy)
        simp [setLane_ne ls r v hyr]
      simp only [List.countP_cons, setLane_self, hcong]
      omega
    · by_cases hxr : x = r
      · exact absurd (hxr.symm ▸ hx) (List.nodup_cons.mp hl).1
      · have hx' : setLane ls r v x = ls x := setLane_ne ls r v hxr
        have := ih (List.nodup_cons.mp hl).2 hx
        simp only [List.countP_cons, hx']
        omega

lemma execCountL_setLane (ls : String → Lane) (r : String) (v : Lane)
    (hr : r ∈ robots) :
    (if isExecuting (ls r).phase then 1 else 0) + execCountL (setLane ls r v)
      = (if isExecuting v.phase then 1 else 0) + execCountL ls := by
  have hnd : robots.Nodup := by decide
  exact countP_setLane robots hnd ls r v (fun l => isExecuting l.phase) hr

lemma robots_contains_iff (r : String) : robots.contains r = true ↔ r ∈ robots := by
  simp [List.contains_iff_exists_mem_beq, beq_iff_eq]

@[simp] lemma doneFor_append (tr₁ tr₂ : List Event) (r : String) :
    doneFor (tr₁ ++ tr₂) r = doneFor tr₁ r ++ doneFor tr₂ r :=
  List.filterMap_append _ _ _

@[simp] lemma startsFor_append (tr₁ tr₂ : List Event) (r : String) :
    startsFor (tr₁ ++ tr₂) r = startsFor tr₁ r ++ startsFor tr₂ r :=
  List.filterMap_append _ _ _

@[simp] lemma rejectsFor_append (tr₁ tr₂ : List Event) (r : String) :
    rejectsFor (tr₁ ++ tr₂) r = rejectsFor tr₁ r ++ rejectsFor tr₂ r :=
  List.filterMap_append _ _ _

@[simp] lemma dispatchedFor_append (tr₁ tr₂ : List Event) (r : String) :
    dispatchedFor (tr₁ ++ tr₂) r = dispatchedFor tr₁ r ++ dispatchedFor tr₂ r :=
  List.filterMap_append _ _ _

@[simp] lemma dispatchedJobs_append (tr₁ tr₂ : List Event) :
    dispatchedJobs (tr₁ ++ tr₂) = dispatchedJobs tr₁ ++ dispatchedJobs tr₂ :=
  List.filterMap_append _ _ _

@[simp] lemma gateTimes_append (tr₁ tr₂ : List Event) (c : String) :
    gateTimes (tr₁ ++ tr₂) c = gateTimes tr₁ c ++ gateTimes tr₂ c :=
  List.filterMap_append _ _ _

@[simp] lemma startTimes_append (tr₁ tr₂ : List Event) (c : String) :
    startTimes (tr₁ ++ tr₂) c = startTimes tr₁ c ++ startTimes tr₂ c :=
  List.filterMap_append _ _ _

@[simp] lemma seFor_append (tr₁ tr₂ : List Event) (r : String) :
    seFor (tr₁ ++ tr₂) r = seFor tr₁ r ++ seFor tr₂ r :=
  List.filterMap_append _ _ _

/-- Execute starts are preceded by a gate pass of the same lane and job:
every index holding an executeStart event has an earlier index holding a
gatePass of the same robot, job id and category, at a time no later than
the start time. -/
def StartOrder (tr : List Event) : Prop :=
  ∀ (j : Nat) (r : String) (id : Nat) (c : String) (t : Nat),
    tr[j]? = some (Event.executeStart r id c t) →
    ∃ (i : Nat) (t' : Nat), i < j ∧ t' ≤ t ∧ tr[i]? = some (Event.gatePass r id c t')

lemma startOrder_nil : StartOrder [] := by
  unfold StartOrder
  intro j r id c t h
  simp at h

lemma startOrder_append (tr : List Event) (e : Event) (h : StartOrder tr)
    (he : ∀ r id c t, e = Event.executeStart r id c t →
      ∃ t', t' ≤ t ∧ Event.gatePass r id c t' ∈ tr) :
    StartOrder (tr ++ [e]) := by
  unfold StartOrder
  intro j r id c t hj
  by_cases hlt : j < tr.length
  · rw [List.getElem?_append_left hlt] at hj
    obtain ⟨i, t', hi, ht', hg⟩ := h j r id c t hj
    exact ⟨i, t', hi, ht', by rw [List.getElem?_append_left (hi.trans hlt)]; exact hg⟩
  · have hjlen : j < tr.length + 1 := by
      have hsome := List.getElem?_eq_some.mp hj
      simpa using hsome.1
    have hj2 : j = tr.length := by omega
    subst hj2
    rw [List.getElem?_append_right (le_refl _)] at hj
    simp at hj
    obtain ⟨t', ht', hmem⟩ := he r id c t hj
    obtain ⟨i, hi⟩ := List.mem_iff_getElem?.mp hmem
    have hilen : i < tr.length := (List.getElem?_eq_some.mp hi).1
    exact ⟨i, t', hilen, ht', by rw [List.getElem?_append_left hilen]; exact hi⟩

/-- The global reachability invariant of the embedded system, relative
to the input batch.  It ties the trace, the lanes, the dispatcher and
the two shared resources together. -/
structure SysInv (batch : List (Nat × String × String)) (s : Sys) : Prop where
  disp_pre : dispatchedJobs s.trace ++ s.pending = batch
  disp_known : ∀ j ∈ dispatchedJobs s.trace, robots.contains j.2.1 = true
  ghost_idle : ∀ r, robots.contains r = false → s.lanes r = ⟨[], .idle⟩
  lane_acct : ∀ r, doneFor s.trace r ++ inFlight (s.lanes r).phase
      ++ (s.lanes r).inbox = dispatchedFor s.trace r
  starts_done : ∀ r, startsFor s.trace r
      = (doneFor s.trace r).filter fun j => (taskConfig j.2).isSome
  rejects_done : ∀ r, rejectsFor s.trace r
      = (doneFor s.trace r).filter fun j => !(taskConfig j.2).isSome
  sem_acct : s.semAvail + execCountL s.lanes = 3
  semwait_reg : ∀ r id c, (s.lanes r).phase = .semWait id c →
      (taskConfig c).isSome = true
  gate_next : ∀ c I, taskConfig c = some I →
      ∀ t ∈ gateTimes s.trace c, t + I ≤ s.nextFree c
  gate_spaced : ∀ c I, taskConfig c = some I →
      (gateTimes s.trace c).Pairwise fun a b => a + I ≤ b
  semwait_gate : ∀ r id c, (s.lanes r).phase = .semWait id c →
      ∃ t', t' ≤ s.now ∧ Event.gatePass r id c t' ∈ s.trace
  start_order : StartOrder s.trace
  se_alt : ∀ r, (isExecuting (s.lanes r).phase = false
        ∧ ∃ n, seFor s.trace r = rounds n)
      ∨ (isExecuting (s.lanes r).phase = true
        ∧ ∃ n, seFor s.trace r = rounds n ++ [true])

lemma sysInv_init (batch : List (Nat × String × String)) : SysInv batch (init batch) := by
  refine ⟨?_, ?_, ?_, ?_, ?_, ?_, ?_, ?_, ?_, ?_, ?_, ?_, ?_⟩
  · simp [init, dispatchedJobs]
  · simp [init, dispatchedJobs]
  · intro r _
    rfl
  · intro r
    simp [init, doneFor, dispatchedFor, inFlight]
  · intro r
    simp [init, startsFor, doneFor]
  · intro r
    simp [init, rejectsFor, doneFor]
  · simp only [init]
    show 3 + execCountL (fun _ => ⟨[], Phase.idle⟩) = 3
    decide
  · intro r id c h
    simp [init] at h
  · intro c I _ t ht
    simp [init, gateTimes] at ht
  · intro c I _
    simp [init, gateTimes]
  · intro r id c h
    simp [init] at h
  · simp only [init]
    exact startOrder_nil
  · intro r
    left
    exact ⟨rfl, 0, by simp [init, seFor, rounds]⟩

lemma sysInv_tick (batch : List (Nat × String × String)) (s : Sys) (d : Nat)
    (h : SysInv batch s) : SysInv batch { s with now := s.now + d } := by
  obtain ⟨h1, h2, h3, h4, h5, h6, h7, h8, h9, h10, h11, h12, h13⟩ := h
  refine ⟨h1, h2, h3, h4, h5, h6, h7, h8, h9, h10, ?_, h12, h13⟩
  intro r id c hph
  obtain ⟨t', ht', hmem⟩ := h11 r id c hph
  refine ⟨t', ?_, hmem⟩
  show t' ≤ s.now + d
  omega

@[simp] lemma doneFor_disp (r' : String) (id : Nat) (c r : String) :
    doneFor [Event.dispatched r' id c] r = [] := by simp [doneFor, doneKey]

@[simp] lemma doneFor_gate (r' : String) (id : Nat) (c : String) (t : Nat) (r : String) :
    doneFor [Event.gatePass r' id c t] r = [] := by simp [doneFor, doneKey]

@[simp] lemma doneFor_end (r' : String) (id : Nat) (c : String) (t : Nat) (r : String) :
    doneFor [Event.executeEnd r' id c t] r = [] := by simp [doneFor, doneKey]

lemma doneFor_rej_self (r : String) (id : Nat) (c : String) :
    doneFor [Event.rejected r id c] r = [(id, c)] := by simp [doneFor, doneKey]

lemma doneFor_rej_other {r' r : String} (h : r' ≠ r) (id : Nat) (c : String) :
    doneFor [Event.rejected r' id c] r = [] := by simp [doneFor, doneKey, h]

lemma doneFor_start_self (r : String) (id : Nat) (c : String) (t : Nat) :
    doneFor [Event.executeStart r id c t] r = [(id, c)] := by simp [doneFor, doneKey]

lemma doneFor_start_other {r' r : String} (h : r' ≠ r) (id : Nat) (c : String) (t : Nat) :
    doneFor [Event.executeStart r' id c t] r = [] := by simp [doneFor, doneKey, h]

@[simp] lemma startsFor_disp (r' : String) (id : Nat) (c r : String) :
    startsFor [Event.dispatched r' id c] r = [] := by simp [startsFor, startKey]

@[simp] lemma startsFor_rej (r' : String) (id : Nat) (c r : String) :
    startsFor [Event.rejected r' id c] r = [] := by simp [startsFor, startKey]

@[simp] lemma startsFor_gate (r' : String) (id : Nat) (c : String) (t : Nat) (r : String) :
    startsFor [Event.gatePass r' id c t] r = [] := by simp [startsFor, startKey]

@[simp] lemma startsFor_end (r' : String) (id : Nat) (c : String) (t : Nat) (r : String) :
    startsFor [Event.executeEnd r' id c t] r = [] := by simp [startsFor, startKey]

lemma startsFor_start_self (r : String) (id : Nat) (c : String) (t : Nat) :
    startsFor [Event.executeStart r id c t] r = [(id, c)] := by simp [startsFor, startKey]

lemma startsFor_start_other {r' r : String} (h : r' ≠ r) (id : Nat) (c : String) (t : Nat) :
    startsFor [Event.executeStart r' id c t] r = [] := by simp [startsFor, startKey, h]

@[simp] lemma rejectsFor_disp (r' : String) (id : Nat) (c r : String) :
    rejectsFor [Event.dispatched r' id c] r = [] := by simp [rejectsFor, rejectKey]

@[simp] lemma rejectsFor_gate (r' : String) (id : Nat) (c : String) (t : Nat) (r : String) :
    rejectsFor [Event.gatePass r' id c t] r = [] := by simp [rejectsFor, rejectKey]

@[simp] lemma rejectsFor_start (r' : String) (id : Nat) (c : String) (t : Nat) (r : String) :
    rejectsFor [Event.executeStart r' id c t] r = [] := by simp [rejectsFor, rejectKey]

@[simp] lemma rejectsFor_end (r' : String) (id : Nat) (c : String) (t : Nat) (r : String) :
    rejectsFor [Event.executeEnd r' id c t] r = [] := by simp [rejectsFor, rejectKey]

lemma rejectsFor_rej_self (r : String) (id : Nat) (c : String) :
    rejectsFor [Event.rejected r id c] r = [(id, c)] := by simp [rejectsFor, rejectKey]

lemma rejectsFor_rej_other {r' r : String} (h : r' ≠ r) (id : Nat) (c : String) :
    rejectsFor [Event.rejected r' id c] r = [] := by simp [rejectsFor, rejectKey, h]

@[simp] lemma dispatchedFor_rej (r' : String) (id : Nat) (c r : String) :
    dispatchedFor [Event.rejected r' id c] r = [] := by simp [dispatchedFor, dispKey]

@[simp] lemma dispatchedFor_gate (r' : String) (id : Nat) (c : String) (t : Nat) (r : String) :
    dispatchedFor [Event.gatePass r' id c t] r = [] := by simp [dispatchedFor, dispKey]

@[simp] lemma dispatchedFor_start (r' : String) (id : Nat) (c : String) (t : Nat) (r : String) :
    dispatchedFor [Event.executeStart r' id c t] r = [] := by simp [dispatchedFor, dispKey]

@[simp] lemma dispatchedFor_end (r' : String) (id : Nat) (c : String) (t : Nat) (r : String) :
    dispatchedFor [Event.executeEnd r' id c t] r = [] := by simp [dispatchedFor, dispKey]

lemma dispatchedFor_disp_self (r : String) (id : Nat) (c : String) :
    dispatchedFor [Event.dispatched r id c] r = [(id, c)] := by simp [dispatchedFor, dispKey]

lemma dispatchedFor_disp_other {r' r : String} (h : r' ≠ r) (id : Nat) (c : String) :
    dispatchedFor [Event.dispatched r' id c] r = [] := by simp [dispatchedFor, dispKey, h]

@[simp] lemma dispatchedJobs_disp (r : String) (id : Nat) (c : String) :
    dispatchedJobs [Event.dispatched r id c] = [(id, r, c)] := by simp [dispatchedJobs, dispJob]

@[simp] lemma dispatchedJobs_rej (r : String) (id : Nat) (c : String) :
    dispatchedJobs [Event.rejected r id c] = [] := by simp [dispatchedJobs, dispJob]

@[simp] lemma dispatchedJobs_gate (r : String) (id : Nat) (c : String) (t : Nat) :
    dispatchedJobs [Event.gatePass r id c t] = [] := by simp [dispatchedJobs, dispJob]

@[simp] lemma dispatchedJobs_start (r : String) (id : Nat) (c : String) (t : Nat) :
    dispatchedJobs [Event.executeStart r id c t] = [] := by simp [dispatchedJobs, dispJob]

@[simp] lemma dispatchedJobs_end (r : String) (id : Nat) (c : String) (t : Nat) :
    dispatchedJobs [Event.executeEnd r id c t] = [] := by simp [dispatchedJobs, dispJob]

@[simp] lemma gateTimes_disp (r : String) (id : Nat) (c c' : String) :
    gateTimes [Event.dispatched r id c] c' = [] := by simp [gateTimes, gateTimeKey]

@[simp] lemma gateTimes_rej (r : String) (id : Nat) (c c' : String) :
    gateTimes [Event.rejected r id c] c' = [] := by simp [gateTimes, gateTimeKey]

@[simp] lemma gateTimes_start (r : String) (id : Nat) (c : String) (t : Nat) (c' : String) :
    gateTimes [Event.executeStart r id c t] c' = [] := by simp [gateTimes, gateTimeKey]

@[simp] lemma gateTimes_end (r : String) (id : Nat) (c : String) (t : Nat) (c' : String) :
    gateTimes [Event.executeEnd r id c t] c' = [] := by simp [gateTimes, gateTimeKey]

lemma gateTimes_gate_self (r : String) (id : Nat) (c : String) (t : Nat) :
    gateTimes [Event.gatePass r id c t] c = [t] := by simp [gateTimes, gateTimeKey]

lemma gateTimes_gate_other {c c' : String} (h : c ≠ c') (r : String) (id : Nat) (t : Nat) :
    gateTimes [Event.gatePass r id c t] c' = [] := by simp [gateTimes, gateTimeKey, h]

@[simp] lemma seFor_disp (r' : String) (id : Nat) (c r : String) :
    seFor [Event.dispatched r' id c] r = [] := by simp [seFor, seKey]

@[simp] lemma seFor_rej (r' : String) (id : Nat) (c r : String) :
    seFor [Event.rejected r' id c] r = [] := by simp [seFor, seKey]

@[simp] lemma seFor_gate (r' : String) (id : Nat) (c : String) (t : Nat) (r : String) :
    seFor [Event.gatePass r' id c t] r = [] := by simp [seFor, seKey]

lemma seFor_start_self (r : String) (id : Nat) (c : String) (t : Nat) :
    seFor [Event.executeStart r id c t] r = [true] := by simp [seFor, seKey]

lemma seFor_start_other {r' r : String} (h : r' ≠ r) (id : Nat) (c : String) (t : Nat) :
    seFor [Event.executeStart r' id c t] r = [] := by simp [seFor, seKey, h]

lemma seFor_end_self (r : String) (id : Nat) (c : String) (t : Nat) :
    seFor [Event.executeEnd r id c t] r = [false] := by simp [seFor, seKey]

lemma seFor_end_other {r' r : String} (h : r' ≠ r) (id : Nat) (c : String) (t : Nat) :
    seFor [Event.executeEnd r' id c t] r = [] := by simp [seFor, seKey, h]


lemma sysInv_dispatch (batch : List (Nat × String × String)) (s : Sys)
    (h : SysInv batch s) : SysInv batch (stepDispatch s) := by
  unfold stepDispatch
  split
  · exact h
  next id robot task rest heq =>
    split_ifs with hfail hknown
    · exact h
    · have hmem : robot ∈ robots := (robots_contains_iff robot).mp hknown
      refine ⟨?_, ?_, ?_, ?_, ?_, ?_, ?_, ?_, ?_, ?_, ?_, ?_, ?_⟩
      · have hp := h.disp_pre
        rw [heq] at hp
        simpa [List.append_assoc] using hp
      · intro j hj
        simp only [dispatchedJobs_append, dispatchedJobs_disp, List.mem_append,
          List.mem_singleton] at hj
        rcases hj with hj | hj
        · exact h.disp_known j hj
        · subst hj
          exact hknown
      · intro r hr
        have hne : r ≠ robot := by
          intro hcon
          rw [hcon, hknown] at hr
          cases hr
        simp only [setLane, if_neg hne]
        exact h.ghost_idle r hr
      · intro r
        by_cases hr : r = robot
        · subst hr
          have hl := h.lane_acct r
          simp only [setLane, if_pos rfl, doneFor_append, doneFor_disp,
            dispatchedFor_append, dispatchedFor_disp_self, List.append_nil]
          rw [← hl]
          simp [List.append_assoc]
        · have hne : robot ≠ r := fun hcon => hr hcon.symm
          simp only [setLane, if_neg hr, doneFor_append, doneFor_disp,
            dispatchedFor_append, dispatchedFor_disp_other hne, List.append_nil]
          exact h.lane_acct r
      · intro r
        simpa using h.starts_done r
      · intro r
        simpa using h.rejects_done r
      · have hc := execCountL_setLane s.lanes robot
          ⟨(s.lanes robot).inbox ++ [(id, task)], (s.lanes robot).phase⟩ hmem
        dsimp only at hc
        have hs := h.sem_acct
        show s.semAvail + execCountL (setLane s.lanes robot
          ⟨(s.lanes robot).inbox ++ [(id, task)], (s.lanes robot).phase⟩) = 3
        omega
      · intro r id' c hph
        by_cases hr : r = robot
        · subst hr
          simp only [setLane, if_pos rfl] at hph
          exact h.semwait_reg r id' c hph
        · simp only [setLane, if_neg hr] at hph
          exact h.semwait_reg r id' c hph
      · intro c I hI t ht
        simp only [gateTimes_append, gateTimes_disp, List.append_nil] at ht
        exact h.gate_next c I hI t ht
      · intro c I hI
        simpa using h.gate_spaced c I hI
      · intro r id' c hph
        by_cases hr : r = robot
        · subst hr
          simp only [setLane, if_pos rfl] at hph
          obtain ⟨t', ht', hm⟩ := h.semwait_gate r id' c hph
          exact ⟨t', ht', List.mem_append_left _ hm⟩
        · simp only [setLane, if_neg hr] at hph
          obtain ⟨t', ht', hm⟩ := h.semwait_gate r id' c hph
          exact ⟨t', ht', List.mem_append_left _ hm⟩
      · exact startOrder_append s.trace _ h.start_order
          (by intro r id' c t hcon; cases hcon)
      · intro r
        by_cases hr : r = robot
        · subst hr
          simp only [setLane, if_pos rfl, seFor_append, seFor_disp, List.append_nil]
          exact h.se_alt r
        · simp only [setLane, if_neg hr, seFor_append, seFor_disp, List.append_nil]
          exact h.se_alt r
    · exact ⟨h.disp_pre, h.disp_known, h.ghost_idle, h.lane_acct, h.starts_done,
        h.rejects_done, h.sem_acct, h.semwait_reg, h.gate_next, h.gate_spaced,
        h.semwait_gate, h.start_order, h.se_alt⟩

lemma sysInv_recv (batch : List (Nat × String × String)) (s : Sys) (r : String)
    (h : SysInv batch s) : SysInv batch (stepRecv s r) := by
  rcases hph : (s.lanes r).phase with _ | ⟨gid, gc⟩ | ⟨sid, sc⟩ | ⟨eid, ec, est⟩
  case gateWait => simp only [stepRecv, hph]; exact h
  case semWait => simp only [stepRecv, hph]; exact h
  case executing => simp only [stepRecv, hph]; exact h
  case idle =>
  rcases hin : (s.lanes r).inbox with _ | ⟨⟨id, task⟩, rest⟩
  · simp only [stepRecv, hph, hin]; exact h
  have hknown : robots.contains r = true := by
    by_contra hcon
    have hghost := h.ghost_idle r (Bool.not_eq_true _ ▸ hcon)
    rw [hghost] at hin
    cases hin
  have hmem : r ∈ robots := (robots_contains_iff r).mp hknown
  rcases hcfg : taskConfig task with _ | I
  · -- unknown category: reject and continue
    simp only [stepRecv, hph, hin, hcfg]
    refine ⟨?_, ?_, ?_, ?_, ?_, ?_, ?_, ?_, ?_, ?_, ?_, ?_, ?_⟩
    · simpa using h.disp_pre
    · intro j hj
      simp only [dispatchedJobs_append, dispatchedJobs_rej, List.append_nil] at hj
      exact h.disp_known j hj
    · intro r' hr'
      have hne : r' ≠ r := by
        intro hcon
        rw [hcon, hknown] at hr'
        cases hr'
      simp only [setLane, if_neg hne]
      exact h.ghost_idle r' hr'
    · intro r'
      by_cases hr' : r' = r
      · subst hr'
        have hl := h.lane_acct r'
        rw [hph, hin] at hl
        simp only [setLane, if_pos rfl, doneFor_append, doneFor_rej_self,
          dispatchedFor_append, dispatchedFor_rej, List.append_nil, inFlight]
        rw [← hl]
        simp [inFlight]
      · have hne : r ≠ r' := fun hcon => hr' hcon.symm
        simp only [setLane, if_neg hr', doneFor_append, doneFor_rej_other hne,
          dispatchedFor_append, dispatchedFor_rej, List.append_nil]
        exact h.lane_acct r'
    · intro r'
      by_cases hr' : r' = r
      · subst hr'
        simp only [startsFor_append, startsFor_rej, doneFor_append,
          doneFor_rej_self, List.append_nil, List.filter_append]
        rw [h.starts_done r']
        simp [hcfg]
      · have hne : r ≠ r' := fun hcon => hr' hcon.symm
        simp only [startsFor_append, startsFor_rej, doneFor_append,
          doneFor_rej_other hne, List.append_nil]
        exact h.starts_done r'
    · intro r'
      by_cases hr' : r' = r
      · subst hr'
        simp only [rejectsFor_append, rejectsFor_rej_self, doneFor_append,
          doneFor_rej_self, List.filter_append]
        rw [h.rejects_done r']
        simp [hcfg]
      · have hne : r ≠ r' := fun hcon => hr' hcon.symm
        simp only [rejectsFor_append, rejectsFor_rej_other hne, doneFor_append,
          doneFor_rej_other hne, List.append_nil]
        exact h.rejects_done r'
    · have hc := execCountL_setLane s.lanes r ⟨rest, Phase.idle⟩ hmem
      dsimp only at hc
      rw [hph] at hc
      have hs := h.sem_acct
      show s.semAvail + execCountL (setLane s.lanes r ⟨rest, Phase.idle⟩) = 3
      simp only [isExecuting] at hc
      omega
    · intro r' id' c hph'
      by_cases hr' : r' = r
      · subst hr'
        simp only [setLane, if_pos rfl] at hph'
        cases hph'
      · simp only [setLane, if_neg hr'] at hph'
        exact h.semwait_reg r' id' c hph'
    · intro c I hI t ht
      simp only [gateTimes_append, gateTimes_rej, List.append_nil] at ht
      exact h.gate_next c I hI t ht
    · intro c I hI
      simpa using h.gate_spaced c I hI
    · intro r' id' c hph'
      by_cases hr' : r' = r
      · subst hr'
        simp only [setLane, if_pos rfl] at hph'
        cases hph'
      · simp only [setLane, if_neg hr'] at hph'
        obtain ⟨t', ht', hm⟩ := h.semwait_gate r' id' c hph'
        exact ⟨t', ht', List.mem_append_left _ hm⟩
    · exact startOrder_append s.trace _ h.start_order
        (by intro r' id' c t hcon; cases hcon)
    · intro r'
      by_cases hr' : r' = r
      · subst hr'
        simp only [setLane, if_pos rfl, seFor_append, seFor_rej, List.append_nil]
        rcases h.se_alt r' with ⟨_, hse⟩ | ⟨hexec, _⟩
        · exact Or.inl ⟨rfl, hse⟩
        · rw [hph] at hexec
          cases hexec
      · simp only [setLane, if_neg hr', seFor_append, seFor_rej, List.append_nil]
        exact h.se_alt r'
  · -- registered category: move to the rate-limiter wait
    simp only [stepRecv, hph, hin, hcfg]
    refine ⟨h.disp_pre, h.disp_known, ?_, ?_, h.starts_done, h.rejects_done, ?_, ?_,
      h.gate_next, h.gate_spaced, ?_, h.start_order, ?_⟩
    · intro r' hr'
      have hne : r' ≠ r := by
        intro hcon
        rw [hcon, hknown] at hr'
        cases hr'
      simp only [setLane, if_neg hne]
      exact h.ghost_idle r' hr'
    · intro r'
      by_cases hr' : r' = r
      · subst hr'
        have hl := h.lane_acct r'
        rw [hph, hin] at hl
        simp only [setLane, if_pos rfl, inFlight]
        rw [← hl]
        simp [inFlight]
      · simp only [setLane, if_neg hr']
        exact h.lane_acct r'
    · have hc := execCountL_setLane s.lanes r ⟨rest, Phase.gateWait id task⟩ hmem
      dsimp only at hc
      rw [hph] at hc
      have hs := h.sem_acct
      show s.semAvail + execCountL (setLane s.lanes r ⟨rest, Phase.gateWait id task⟩) = 3
      simp only [isExecuting] at hc
      omega
    · intro r' id' c hph'
      by_cases hr' : r' = r
      · subst hr'
        simp only [setLane, if_pos rfl] at hph'
        cases hph'
      · simp only [setLane, if_neg hr'] at hph'
        exact h.semwait_reg r' id' c hph'
    · intro r' id' c hph'
      by_cases hr' : r' = r
      · subst hr'
        simp only [setLane, if_pos rfl] at hph'
        cases hph'
      · simp only [setLane, if_neg hr'] at hph'
        exact h.semwait_gate r' id' c hph'
    · intro r'
      by_cases hr' : r' = r
      · subst hr'
        simp only [setLane, if_pos rfl]
        rcases h.se_alt r' with ⟨_, hse⟩ | ⟨hexec, _⟩
        · exact Or.inl ⟨rfl, hse⟩
        · rw [hph] at hexec
          cases hexec
      · simp only [setLane, if_neg hr']
        exact h.se_alt r'

lemma sysInv_gate (batch : List (Nat × String × String)) (s : Sys) (r : String)
    (h : SysInv batch s) : SysInv batch (stepGate s r) := by
  rcases hph : (s.lanes r).phase with _ | ⟨id, task⟩ | ⟨sid, sc⟩ | ⟨eid, ec, est⟩
  case idle => simp only [stepGate, hph]; exact h
  case semWait => simp only [stepGate, hph]; exact h
  case executing => simp only [stepGate, hph]; exact h
  case gateWait =>
  have hknown : robots.contains r = true := by
    by_contra hcon
    have hghost := h.ghost_idle r (Bool.not_eq_true _ ▸ hcon)
    rw [hghost] at hph
    cases hph
  have hmem : r ∈ robots := (robots_contains_iff r).mp hknown
  rcases hcfg : taskConfig task with _ | interval
  · simp only [stepGate, hph, hcfg]; exact h
  by_cases hrdy : s.nextFree task ≤ s.now
  · simp only [stepGate, hph, hcfg, if_pos hrdy]
    refine ⟨?_, ?_, ?_, ?_, ?_, ?_, ?_, ?_, ?_, ?_, ?_, ?_, ?_⟩
    · simpa using h.disp_pre
    · intro j hj
      simp only [dispatchedJobs_append, dispatchedJobs_gate, List.append_nil] at hj
      exact h.disp_known j hj
    · intro r' hr'
      have hne : r' ≠ r := by
        intro hcon
        rw [hcon, hknown] at hr'
        cases hr'
      simp only [setLane, if_neg hne]
      exact h.ghost_idle r' hr'
    · intro r'
      by_cases hr' : r' = r
      · subst hr'
        have hl := h.lane_acct r'
        rw [hph] at hl
        simp only [setLane, if_pos rfl, doneFor_append, doneFor_gate,
          dispatchedFor_append, dispatchedFor_gate, List.append_nil, inFlight]
        rw [← hl]
        simp [inFlight]
      · simp only [setLane, if_neg hr', doneFor_append, doneFor_gate,
          dispatchedFor_append, dispatchedFor_gate, List.append_nil]
        exact h.lane_acct r'
    · intro r'
      simpa using h.starts_done r'
    · intro r'
      simpa using h.rejects_done r'
    · have hc := execCountL_setLane s.lanes r ⟨(s.lanes r).inbox, Phase.semWait id task⟩ hmem
      dsimp only at hc
      rw [hph] at hc
      have hs := h.sem_acct
      show s.semAvail + execCountL (setLane s.lanes r
        ⟨(s.lanes r).inbox, Phase.semWait id task⟩) = 3
      simp only [isExecuting] at hc
      omega
    · intro r' id' c hph'
      by_cases hr' : r' = r
      · subst hr'
        simp only [setLane, if_pos rfl] at hph'
        cases hph'
        simp [hcfg]
      · simp only [setLane, if_neg hr'] at hph'
        exact h.semwait_reg r' id' c hph'
    · intro c I hI t ht
      simp only [gateTimes_append] at ht
      show t + I ≤ (if c = task then s.now + interval else s.nextFree c)
      by_cases hct : c = task
      · subst hct
        rw [hcfg] at hI
        injection hI with hII
        rw [gateTimes_gate_self] at ht
        simp only [List.mem_append, List.mem_singleton] at ht
        rw [if_pos rfl]
        rcases ht with ht | ht
        · have := h.gate_next c interval hcfg t ht
          omega
        · omega
      · have hne : task ≠ c := fun hcon => hct hcon.symm
        rw [gateTimes_gate_other hne, List.append_nil] at ht
        rw [if_neg hct]
        exact h.gate_next c I hI t ht
    · intro c I hI
      simp only [gateTimes_append]
      by_cases hct : c = task
      · subst hct
        rw [hcfg] at hI
        injection hI with hII
        rw [gateTimes_gate_self]
        rw [List.pairwise_append]
        refine ⟨h.gate_spaced c interval hcfg |>.imp ?_, List.pairwise_singleton _ _, ?_⟩
        · intro a b hab
          omega
        · intro a ha b hb
          simp only [List.mem_singleton] at hb
          subst hb
          have := h.gate_next c interval hcfg a ha
          omega
      · have hne : task ≠ c := fun hcon => hct hcon.symm
        rw [gateTimes_gate_other hne, List.append_nil]
        exact h.gate_spaced c I hI
    · intro r' id' c hph'
      by_cases hr' : r' = r
      · subst hr'
        simp only [setLane, if_pos rfl] at hph'
        cases hph'
        exact ⟨s.now, le_refl _, List.mem_append_right _ (List.mem_singleton.mpr rfl)⟩
      · simp only [setLane, if_neg hr'] at hph'
        obtain ⟨t', ht', hm⟩ := h.semwait_gate r' id' c hph'
        exact ⟨t', ht', List.mem_append_left _ hm⟩
    · exact startOrder_append s.trace _ h.start_order
        (by intro r' id' c t hcon; cases hcon)
    · intro r'
      by_cases hr' : r' = r
      · subst hr'
        simp only [setLane, if_pos rfl, seFor_append, seFor_gate, List.append_nil]
        rcases h.se_alt r' with ⟨_, hse⟩ | ⟨hexec, _⟩
        · exact Or.inl ⟨rfl, hse⟩
        · rw [hph] at hexec
          cases hexec
      · simp only [setLane, if_neg hr', seFor_append, seFor_gate, List.append_nil]
        exact h.se_alt r'
  · simp only [stepGate, hph, hcfg, if_neg hrdy]; exact h

lemma rounds_snoc (n : Nat) : rounds n ++ [true, false] = rounds (n + 1) := by
  induction n with
  | zero => rfl
  | succ n ih =>
    show true :: false :: rounds n ++ [true, false] = true :: false :: rounds (n + 1)
    rw [← ih]
    simp

lemma sysInv_acquire (batch : List (Nat × String × String)) (s : Sys) (r : String)
    (h : SysInv batch s) : SysInv batch (stepAcquire s r) := by
  rcases hph : (s.lanes r).phase with _ | ⟨gid, gc⟩ | ⟨id, task⟩ | ⟨eid, ec, est⟩
  case idle => simp only [stepAcquire, hph]; exact h
  case gateWait => simp only [stepAcquire, hph]; exact h
  case executing => simp only [stepAcquire, hph]; exact h
  case semWait =>
  have hknown : robots.contains r = true := by
    by_contra hcon
    have hghost := h.ghost_idle r (Bool.not_eq_true _ ▸ hcon)
    rw [hghost] at hph
    cases hph
  have hmem : r ∈ robots := (robots_contains_iff r).mp hknown
  have hreg : (taskConfig task).isSome = true := h.semwait_reg r id task hph
  obtain ⟨I0, hI0⟩ := Option.isSome_iff_exists.mp hreg
  by_cases hsem : 0 < s.semAvail
  · simp only [stepAcquire, hph, if_pos hsem]
    refine ⟨?_, ?_, ?_, ?_, ?_, ?_, ?_, ?_, ?_, ?_, ?_, ?_, ?_⟩
    · simpa using h.disp_pre
    · intro j hj
      simp only [dispatchedJobs_append, dispatchedJobs_start, List.append_nil] at hj
      exact h.disp_known j hj
    · intro r' hr'
      have hne : r' ≠ r := by
        intro hcon
        rw [hcon, hknown] at hr'
        cases hr'
      simp only [setLane, if_neg hne]
      exact h.ghost_idle r' hr'
    · intro r'
      by_cases hr' : r' = r
      · subst hr'
        have hl := h.lane_acct r'
        rw [hph] at hl
        simp only [setLane, if_pos rfl, doneFor_append, doneFor_start_self,
          dispatchedFor_append, dispatchedFor_start, List.append_nil, inFlight]
        rw [← hl]
        simp [inFlight]
      · have hne : r ≠ r' := fun hcon => hr' hcon.symm
        simp only [setLane, if_neg hr', doneFor_append, doneFor_start_other hne,
          dispatchedFor_append, dispatchedFor_start, List.append_nil]
        exact h.lane_acct r'
    · intro r'
      by_cases hr' : r' = r
      · subst hr'
        simp only [startsFor_append, startsFor_start_self, doneFor_append,
          doneFor_start_self, List.filter_append]
        rw [h.starts_done r']
        simp [hI0]
      · have hne : r ≠ r' := fun hcon => hr' hcon.symm
        simp only [startsFor_append, startsFor_start_other hne, doneFor_append,
          doneFor_start_other hne, List.append_nil]
        exact h.starts_done r'
    · intro r'
      by_cases hr' : r' = r
      · subst hr'
        simp only [rejectsFor_append, rejectsFor_start, doneFor_append,
          doneFor_start_self, List.filter_append, List.append_nil]
        rw [h.rejects_done r']
        simp [hI0]
      · have hne : r ≠ r' := fun hcon => hr' hcon.symm
        simp only [rejectsFor_append, rejectsFor_start, doneFor_append,
          doneFor_start_other hne, List.append_nil]
        exact h.rejects_done r'
    · have hc := execCountL_setLane s.lanes r
        ⟨(s.lanes r).inbox, Phase.executing id task s.now⟩ hmem
      dsimp only at hc
      rw [hph] at hc
      have hs := h.sem_acct
      show s.semAvail - 1 + execCountL (setLane s.lanes r
        ⟨(s.lanes r).inbox, Phase.executing id task s.now⟩) = 3
      simp [isExecuting] at hc
      omega
    · intro r' id' c hph'
      by_cases hr' : r' = r
      · subst hr'
        simp only [setLane, if_pos rfl] at hph'
        cases hph'
      · simp only [setLane, if_neg hr'] at hph'
        exact h.semwait_reg r' id' c hph'
    · intro c I hI t ht
      simp only [gateTimes_append, gateTimes_start, List.append_nil] at ht
      exact h.gate_next c I hI t ht
    · intro c I hI
      simpa using h.gate_spaced c I hI
    · intro r' id' c hph'
      by_cases hr' : r' = r
      · subst hr'
        simp only [setLane, if_pos rfl] at hph'
        cases hph'
      · simp only [setLane, if_neg hr'] at hph'
        obtain ⟨t', ht', hm⟩ := h.semwait_gate r' id' c hph'
        exact ⟨t', ht', List.mem_append_left _ hm⟩
    · refine startOrder_append s.trace _ h.start_order ?_
      intro r2 id2 c2 t2 hcon
      injection hcon with h1 h2 h3 h4
      subst h1
      subst h2
      subst h3
      subst h4
      exact h.semwait_gate _ _ _ hph
    · intro r'
      by_cases hr' : r' = r
      · subst hr'
        simp only [setLane, if_pos rfl, seFor_append, seFor_start_self]
        rcases h.se_alt r' with ⟨_, n, hse⟩ | ⟨hexec, _⟩
        · exact Or.inr ⟨rfl, n, by rw [hse]⟩
        · rw [hph] at hexec
          cases hexec
      · have hne : r ≠ r' := fun hcon => hr' hcon.symm
        simp only [setLane, if_neg hr', seFor_append, seFor_start_other hne,
          List.append_nil]
        exact h.se_alt r'
  · simp only [stepAcquire, hph, if_neg hsem]; exact h

lemma sysInv_finish (batch : List (Nat × String × String)) (s : Sys) (r : String)
    (h : SysInv batch s) : SysInv batch (stepFinish s r) := by
  rcases hph : (s.lanes r).phase with _ | ⟨gid, gc⟩ | ⟨sid, sc⟩ | ⟨id, task, est⟩
  case idle => simp only [stepFinish, hph]; exact h
  case gateWait => simp only [stepFinish, hph]; exact h
  case semWait => simp only [stepFinish, hph]; exact h
  case executing =>
  have hknown : robots.contains r = true := by
    by_contra hcon
    have hghost := h.ghost_idle r (Bool.not_eq_true _ ▸ hcon)
    rw [hghost] at hph
    cases hph
  have hmem : r ∈ robots := (robots_contains_iff r).mp hknown
  by_cases hdone : est + taskDuration task ≤ s.now
  · simp only [stepFinish, hph, if_pos hdone]
    refine ⟨?_, ?_, ?_, ?_, ?_, ?_, ?_, ?_, ?_, ?_, ?_, ?_, ?_⟩
    · simpa using h.disp_pre
    · intro j hj
      simp only [dispatchedJobs_append, dispatchedJobs_end, List.append_nil] at hj
      exact h.disp_known j hj
    · intro r' hr'
      have hne : r' ≠ r := by
        intro hcon
        rw [hcon, hknown] at hr'
        cases hr'
      simp only [setLane, if_neg hne]
      exact h.ghost_idle r' hr'
    · intro r'
      by_cases hr' : r' = r
      · subst hr'
        have hl := h.lane_acct r'
        rw [hph] at hl
        simp only [setLane, if_pos rfl, doneFor_append, doneFor_end,
          dispatchedFor_append, dispatchedFor_end, List.append_nil, inFlight]
        rw [← hl]
        simp [inFlight]
      · simp only [setLane, if_neg hr', doneFor_append, doneFor_end,
          dispatchedFor_append, dispatchedFor_end, List.append_nil]
        exact h.lane_acct r'
    · intro r'
      simpa using h.starts_done r'
    · intro r'
      simpa using h.rejects_done r'
    · have hc := execCountL_setLane s.lanes r ⟨(s.lanes r).inbox, Phase.idle⟩ hmem
      dsimp only at hc
      rw [hph] at hc
      have hs := h.sem_acct
      show s.semAvail + 1 + execCountL (setLane s.lanes r
        ⟨(s.lanes r).inbox, Phase.idle⟩) = 3
      simp [isExecuting] at hc
      omega
    · intro r' id' c hph'
      by_cases hr' : r' = r
      · subst hr'
        simp only [setLane, if_pos rfl] at hph'
        cases hph'
      · simp only [setLane, if_neg hr'] at hph'
        exact h.semwait_reg r' id' c hph'
    · intro c I hI t ht
      simp only [gateTimes_append, gateTimes_end, List.append_nil] at ht
      exact h.gate_next c I hI t ht
    · intro c I hI
      simpa using h.gate_spaced c I hI
    · intro r' id' c hph'
      by_cases hr' : r' = r
      · subst hr'
        simp only [setLane, if_pos rfl] at hph'
        cases hph'
      · simp only [setLane, if_neg hr'] at hph'
        obtain ⟨t', ht', hm⟩ := h.semwait_gate r' id' c hph'
        exact ⟨t', ht', List.mem_append_left _ hm⟩
    · exact startOrder_append s.trace _ h.start_order
        (by intro r2 id2 c2 t2 hcon; cases hcon)
    · intro r'
      by_cases hr' : r' = r
      · subst hr'
        simp only [setLane, if_pos rfl, seFor_append, seFor_end_self]
        rcases h.se_alt r' with ⟨hexec, _⟩ | ⟨_, n, hse⟩
        · rw [hph] at hexec
          cases hexec
        · refine Or.inl ⟨rfl, n + 1, ?_⟩
          rw [hse, ← rounds_snoc n]
          simp
      · have hne : r ≠ r' := fun hcon => hr' hcon.symm
        simp only [setLane, if_neg hr', seFor_append, seFor_end_other hne,
          List.append_nil]
        exact h.se_alt r'
  · simp only [stepFinish, hph, if_neg hdone]; exact h

lemma sysInv_step (batch : List (Nat × String × String)) (s : Sys) (a : Act)
    (h : SysInv batch s) : SysInv batch (step s a) := by
  cases a with
  | dispatch => exact sysInv_dispatch batch s h
  | recv r => exact sysInv_recv batch s r h
  | gate r => exact sysInv_gate batch s r h
  | acquire r => exact sysInv_acquire batch s r h
  | finish r => exact sysInv_finish batch s r h
  | tick d => exact sysInv_tick batch s d h

lemma sysInv_run (batch : List (Nat × String × String)) (s : Sys)
    (acts : List Act) (h : SysInv batch s) : SysInv batch (run s acts) := by
  induction acts generalizing s with
  | nil => exact h
  | cons a as ih => exact ih (step s a) (sysInv_step batch s a h)

lemma sysInv_reach (batch : List (Nat × String × String)) (acts : List Act) :
    SysInv batch (run (init batch) acts) :=
  sysInv_run batch (init batch) acts (sysInv_init batch)

lemma batchFor_append (l1 l2 : List (Nat × String × String)) (r : String) :
    batchFor (l1 ++ l2) r = batchFor l1 r ++ batchFor l2 r := by
  simp [batchFor, List.filter_append]

lemma dispatchedFor_eq_jobs (tr : List Event) (r : String) :
    dispatchedFor tr r = batchFor (dispatchedJobs tr) r := by
  induction tr with
  | nil => rfl
  | cons e tl ih =>
    have hsplit : e :: tl = [e] ++ tl := rfl
    rw [hsplit, dispatchedFor_append, dispatchedJobs_append, batchFor_append, ih]
    congr 1
    cases e with
    | dispatched r' id c =>
      by_cases hr : r' = r
      · subst hr
        rw [dispatchedFor_disp_self, dispatchedJobs_disp]
        simp [batchFor]
      · rw [dispatchedFor_disp_other (fun hcon => hr hcon), dispatchedJobs_disp]
        simp [batchFor, hr]
    | rejected r' id c => simp [batchFor]
    | gatePass r' id c t => simp [batchFor]
    | executeStart r' id c t => simp [batchFor]
    | executeEnd r' id c t => simp [batchFor]

lemma mem_takeWhile_of_append {α : Type} (p : α → Bool) (l₁ l₂ : List α)
    (hall : ∀ x ∈ l₁, p x = true) :
    ∀ x ∈ l₁, x ∈ (l₁ ++ l₂).takeWhile p := by
  induction l₁ with
  | nil => intro x hx; cases hx
  | cons a tl ih =>
    intro x hx
    have hpa : p a = true := hall a (List.mem_cons_self a tl)
    rw [List.cons_append, List.takeWhile_cons, hpa]
    rcases List.mem_cons.mp hx with hx | hx
    · subst hx
      exact List.mem_cons_self _ _
    · exact List.mem_cons_of_mem _ (ih (fun y hy => hall y (List.mem_cons_of_mem a hy)) x hx)

lemma mem_startsFor_of_mem (tr : List Event) (r : String) (id : Nat) (c : String)
    (t : Nat) (hm : Event.executeStart r id c t ∈ tr) : (id, c) ∈ startsFor tr r :=
  List.mem_filterMap.mpr ⟨_, hm, by simp [startKey]⟩

lemma mem_dispatchedJobs_of_for (tr : List Event) (r : String) (id : Nat) (c : String)
    (hm : (id, c) ∈ dispatchedFor tr r) : (id, r, c) ∈ dispatchedJobs tr := by
  obtain ⟨e, he, hk⟩ := List.mem_filterMap.mp hm
  cases e with
  | dispatched r' id' c' =>
    simp only [dispKey] at hk
    by_cases hr : r' = r
    · rw [if_pos hr] at hk
      injection hk with hk
      injection hk with hk1 hk2
      subst hr; subst hk1; subst hk2
      exact List.mem_filterMap.mpr ⟨_, he, by simp [dispJob]⟩
    · rw [if_neg hr] at hk
      cases hk
  | rejected r' id' c' => simp [dispKey] at hk
  | gatePass r' id' c' t' => simp [dispKey] at hk
  | executeStart r' id' c' t' => simp [dispKey] at hk
  | executeEnd r' id' c' t' => simp [dispKey] at hk

lemma execute_task_total (c : String) (id : Nat) (r : String)
    (h : (taskConfig c).isSome = true) : ∃ out, execute_task c id r = some out := by
  unfold taskConfig at h
  unfold execute_task
  split_ifs at h ⊢ <;> first
    | exact ⟨_, rfl⟩
    | simp at h

lemma drained_done (batch : List (Nat × String × String)) (acts : List Act)
    (hD : drained (run (init batch) acts)) (r : String) :
    doneFor (run (init batch) acts).trace r = batchFor batch r := by
  have hinv := sysInv_reach batch acts
  have hl := hinv.lane_acct r
  have hphase : ((run (init batch) acts).lanes r).phase = Phase.idle
      ∧ ((run (init batch) acts).lanes r).inbox = [] := by
    by_cases hr : r ∈ robots
    · exact ⟨(hD.2 r hr).2, (hD.2 r hr).1⟩
    · have hc : robots.contains r = false := by
        by_cases hb : robots.contains r = true
        · exact absurd ((robots_contains_iff r).mp hb) hr
        · exact Bool.not_eq_true _ ▸ hb
      rw [hinv.ghost_idle r hc]
      exact ⟨rfl, rfl⟩
  rw [hphase.1, hphase.2] at hl
  simp only [inFlight, List.append_nil] at hl
  rw [hl, dispatchedFor_eq_jobs]
  have hjobs : dispatchedJobs (run (init batch) acts).trace = batch := by
    have hp := hinv.disp_pre
    rw [hD.1] at hp
    simpa using hp
  rw [hjobs]

/-- Claim C1: per-lane FIFO.  When a run completes (channels drained, all
lanes back at the pop) and every job of the batch names a known robot and
a registered category, the sequence of execute_task invocations performed
by each robot's lane is exactly the subsequence of the input batch
assigned to that robot, in input order. -/
theorem c1_per_lane_fifo (batch : List (Nat × String × String)) (acts : List Act)
    (_hW : ∀ j ∈ batch, robots.contains j.2.1 = true)
    (hC : ∀ j ∈ batch, (taskConfig j.2.2).isSome = true)
    (hD : drained (run (init batch) acts)) (r : String) :
    startsFor (run (init batch) acts).trace r = batchFor batch r := by
  have hinv := sysInv_reach batch acts
  rw [hinv.starts_done r, drained_done batch acts hD r]
  apply List.filter_eq_self.mpr
  intro j hj
  simp only [batchFor, List.mem_map, List.mem_filter] at hj
  obtain ⟨x, ⟨hxb, _⟩, hfx⟩ := hj
  subst hfx
  exact hC x hxb

/-- One registered job for Dave, run to completion. -/
def oneFeedBatch : List (Nat × String × String) := [(1, "Dave", "feed_the_cat")]

/-- A complete interleaving for `oneFeedBatch`. -/
def oneFeedActs : List Act :=
  [.dispatch, .recv "Dave", .gate "Dave", .acquire "Dave", .tick 500, .finish "Dave"]

/-- Witness for C1 on a concrete completed run. -/
theorem c1_witness :
    startsFor (run (init oneFeedBatch) oneFeedActs).trace "Dave"
      = batchFor oneFeedBatch "Dave" :=
  c1_per_lane_fifo oneFeedBatch oneFeedActs (by decide) (by decide) (by decide) "Dave"

/-- Two feed_the_cat jobs for Dave. -/
def twoFeedBatch : List (Nat × String × String) :=
  [(1, "Dave", "feed_the_cat"), (2, "Dave", "feed_the_cat")]

/-- Interleaving in which job 1 passes its rate-limiter gate at time 0
but starts executing only at time 1 (the lane is simply not polled in
between), while job 2 passes the gate at 2000 and starts immediately:
the two starts are 1999 ms apart, less than the 2000 ms interval. -/
def delayedStartActs : List Act :=
  [.dispatch, .dispatch, .recv "Dave", .gate "Dave", .tick 1, .acquire "Dave",
   .tick 500, .finish "Dave", .recv "Dave", .tick 1499, .gate "Dave", .acquire "Dave"]

/-- Claim C2 as stated is false: the rate limiter spaces out the
completions of until_ready, not the execute_task start timestamps, and
any delay between a gate pass and the subsequent semaphore acquisition
lets two starts of the same category land closer together than the
category's interval. -/
theorem c2_start_spacing_counterexample :
    ¬ (∀ (batch : List (Nat × String × String)) (acts : List Act) (c : String) (I : Nat),
        taskConfig c = some I →
        spacedBy I (startTimes (run (init batch) acts).trace c) = true) := by
  intro hclaim
  exact absurd (hclaim twoFeedBatch delayedStartActs "feed_the_cat" 2000 (by decide))
    (by decide)

/-- Claim C2, amended: for every category c with configured interval I,
any two rate-limiter admissions (completions of until_ready) of category
c across all workers are at least I apart; the spacing holds at the gate,
not at the execute_task start timestamps. -/
theorem c2_gate_spacing (batch : List (Nat × String × String)) (acts : List Act)
    (c : String) (I : Nat) (h : taskConfig c = some I) :
    (gateTimes (run (init batch) acts).trace c).Pairwise fun a b => a + I ≤ b :=
  (sysInv_reach batch acts).gate_spaced c I h

/-- Interleaving for `twoFeedBatch` producing two gate passes, at 0 and 2000. -/
def twoFeedGateActs : List Act :=
  [.dispatch, .dispatch, .recv "Dave", .gate "Dave", .acquire "Dave", .tick 500,
   .finish "Dave", .recv "Dave", .tick 1500, .gate "Dave"]

/-- Witness for the amended C2 on a concrete run with two gate passes. -/
theorem c2_gate_spacing_witness :
    (gateTimes (run (init twoFeedBatch) twoFeedGateActs).trace "feed_the_cat").Pairwise
      fun a b => a + 2000 ≤ b :=
  c2_gate_spacing twoFeedBatch twoFeedGateActs "feed_the_cat" 2000 (by decide)

/-- Claim C3: in every reachable state, the number of lanes currently
inside execute_task (between semaphore admission and completion) is at
most 3, the semaphore capacity fixed at construction. -/
theorem c3_concurrency_bound (batch : List (Nat × String × String)) (acts : List Act) :
    execCount (run (init batch) acts) ≤ 3 := by
  have hs := (sysInv_reach batch acts).sem_acct
  rw [execCount_eq]
  omega

/-- Claim C4: exactly-once consumption.  When a run completes, each
robot's executed jobs are exactly its batch jobs with registered
category, in order, and its rejected jobs are exactly its batch jobs
with unregistered category, in order — so every job is either executed
once or rejected once, none lost, none duplicated. -/
theorem c4_exactly_once (batch : List (Nat × String × String)) (acts : List Act)
    (hD : drained (run (init batch) acts)) (r : String) :
    startsFor (run (init batch) acts).trace r
      = (batchFor batch r).filter (fun j => (taskConfig j.2).isSome) ∧
    rejectsFor (run (init batch) acts).trace r
      = (batchFor batch r).filter (fun j => !(taskConfig j.2).isSome) := by
  have hinv := sysInv_reach batch acts
  exact ⟨by rw [hinv.starts_done r, drained_done batch acts hD r],
         by rw [hinv.rejects_done r, drained_done batch acts hD r]⟩

/-- One registered and one unregistered-category job for Dave. -/
def mixedBatch : List (Nat × String × String) :=
  [(1, "Dave", "feed_the_cat"), (2, "Dave", "dance")]

/-- A complete interleaving for `mixedBatch`. -/
def mixedActs : List Act :=
  [.dispatch, .dispatch, .recv "Dave", .gate "Dave", .acquire "Dave", .tick 500,
   .finish "Dave", .recv "Dave"]

/-- Witness for C4 on a concrete completed run with a rejection. -/
theorem c4_witness :
    startsFor (run (init mixedBatch) mixedActs).trace "Dave"
      = (batchFor mixedBatch "Dave").filter (fun j => (taskConfig j.2).isSome) ∧
    rejectsFor (run (init mixedBatch) mixedActs).trace "Dave"
      = (batchFor mixedBatch "Dave").filter (fun j => !(taskConfig j.2).isSome) :=
  c4_exactly_once mixedBatch mixedActs (by decide) "Dave"

/-- A batch whose second job names a robot with no lane. -/
def unknownRobotBatch : List (Nat × String × String) :=
  [(1, "Dave", "feed_the_cat"), (2, "Bob", "feed_the_cat")]

/-- Interleaving in which Dave's lane receives and fully executes job 1
while the dispatcher is between its first and second send; the second
send then hits the unknown robot and panics. -/
def unknownRobotActs : List Act :=
  [.dispatch, .recv "Dave", .gate "Dave", .acquire "Dave", .dispatch]

/-- Claim C5 as stated is false: the lanes are spawned and run
concurrently with the dispatch loop, so a job dispatched before the
unknown-robot job can execute even though the batch dispatch fails. -/
theorem c5_no_execution_counterexample :
    ¬ (∀ (batch : List (Nat × String × String)) (acts : List Act),
        (∃ j ∈ batch, robots.contains j.2.1 = false) →
        allStarts (run (init batch) acts).trace = []) := by
  intro hclaim
  exact absurd (hclaim unknownRobotBatch unknownRobotActs
    ⟨(2, "Bob", "feed_the_cat"), by decide, by decide⟩) (by decide)

/-- Claim C5, amended: the dispatcher panics at the first job naming an
unknown robot and dispatches nothing from that job onward, so every job
that ever reaches execute_task lies in the longest known-robot prefix of
the batch; jobs dispatched before the failure may however already have
executed. -/
theorem c5_amended_dispatch_cutoff (batch : List (Nat × String × String))
    (acts : List Act) (r : String) (id : Nat) (c : String) (t : Nat)
    (hm : Event.executeStart r id c t ∈ (run (init batch) acts).trace) :
    (id, r, c) ∈ batch.takeWhile fun j => robots.contains j.2.1 := by
  have hinv := sysInv_reach batch acts
  have h1 : (id, c) ∈ startsFor (run (init batch) acts).trace r :=
    mem_startsFor_of_mem _ _ _ _ _ hm
  rw [hinv.starts_done r] at h1
  have h2 : (id, c) ∈ doneFor (run (init batch) acts).trace r :=
    List.mem_of_mem_filter h1
  have h3 : (id, c) ∈ dispatchedFor (run (init batch) acts).trace r := by
    rw [← hinv.lane_acct r]
    exact List.mem_append_left _ (List.mem_append_left _ h2)
  have h4 := mem_dispatchedJobs_of_for _ _ _ _ h3
  have h5 := hinv.disp_pre
  have h7 := mem_takeWhile_of_append (fun j => robots.contains j.2.1)
    (dispatchedJobs (run (init batch) acts).trace) (run (init batch) acts).pending
    hinv.disp_known _ h4
  rw [h5] at h7
  exact h7

/-- Witness for the amended C5: the job executed before the failing
dispatch lies in the known-robot prefix of the batch. -/
theorem c5_witness :
    ((1 : Nat), "Dave", "feed_the_cat")
      ∈ unknownRobotBatch.takeWhile (fun j => robots.contains j.2.1) :=
  c5_amended_dispatch_cutoff unknownRobotBatch unknownRobotActs "Dave" 1
    "feed_the_cat" 0 (by decide)

/-- Claim C6: a job whose category has no rate-limiter configuration is
reported and skipped by its lane without crashing: the lane appends one
rejected event, pops the job, returns to the idle pop, touches neither
the rate-limiter state nor the semaphore, leaves every other lane alone,
and no execute_task invocation happens for the job. -/
theorem c6_unknown_category_skip (s : Sys) (r : String) (id : Nat) (c : String)
    (rest : List (Nat × String)) (hph : (s.lanes r).phase = Phase.idle)
    (hin : (s.lanes r).inbox = (id, c) :: rest) (hcfg : taskConfig c = none) :
    (step s (.recv r)).trace = s.trace ++ [Event.rejected r id c] ∧
    ((step s (.recv r)).lanes r).inbox = rest ∧
    ((step s (.recv r)).lanes r).phase = Phase.idle ∧
    (∀ r', r' ≠ r → (step s (.recv r)).lanes r' = s.lanes r') ∧
    (step s (.recv r)).semAvail = s.semAvail ∧
    (step s (.recv r)).nextFree = s.nextFree ∧
    (step s (.recv r)).now = s.now ∧
    (step s (.recv r)).pending = s.pending := by
  have hstep : step s (.recv r)
      = { s with lanes := setLane s.lanes r ⟨rest, Phase.idle⟩
                 trace := s.trace ++ [Event.rejected r id c] } := by
    simp only [step, stepRecv, hph, hin, hcfg]
  rw [hstep]
  refine ⟨rfl, ?_, ?_, ?_, rfl, rfl, rfl, rfl⟩
  · simp [setLane]
  · simp [setLane]
  · intro r' hne
    simp [setLane, hne]

/-- State reached after dispatching one unregistered-category job to Dave. -/
def rejectState : Sys := run (init [(1, "Dave", "dance")]) [.dispatch]

/-- Witness for C6 on a concrete state with an unregistered job queued. -/
theorem c6_witness :
    (step rejectState (Act.recv "Dave")).trace
      = rejectState.trace ++ [Event.rejected "Dave" 1 "dance"] :=
  (c6_unknown_category_skip rejectState "Dave" 1 "dance" [] (by decide) (by decide)
    (by decide)).1

/-- Claim C7: acquisition-order discipline.  Every semaphore acquisition
(the executeStart event is emitted at the instant the permit is taken)
is preceded in the trace by the rate-limiter gate pass of the same lane
and job, at a time no later than the start; the reverse order never
occurs, since a lane only reaches the semaphore wait from the gate wait. -/
theorem c7_gate_before_slot (batch : List (Nat × String × String)) (acts : List Act)
    (j : Nat) (r : String) (id : Nat) (c : String) (t : Nat)
    (hj : (run (init batch) acts).trace[j]? = some (Event.executeStart r id c t)) :
    ∃ (i : Nat) (t' : Nat), i < j ∧ t' ≤ t ∧
      (run (init batch) acts).trace[i]? = some (Event.gatePass r id c t') :=
  (sysInv_reach batch acts).start_order j r id c t hj

/-- Witness for C7 on a concrete run. -/
theorem c7_witness :
    ∃ (i : Nat) (t' : Nat), i < 2 ∧ t' ≤ 0 ∧
      (run (init oneFeedBatch) oneFeedActs).trace[i]?
        = some (Event.gatePass "Dave" 1 "feed_the_cat" t') :=
  c7_gate_before_slot oneFeedBatch oneFeedActs 2 "Dave" 1 "feed_the_cat" 0 (by decide)

/-- Claim C8: permit accounting.  In every reachable state the free
permits plus the lanes currently inside execute_task sum to the capacity
3 (each admitted execution holds exactly one permit for its entire
duration), and each lane's start and end events strictly alternate
(start, end, start, end, ...), with a trailing unmatched start exactly
when the lane is executing — so the permit taken for a job is always
returned before the lane begins its next job. -/
theorem c8_permit_accounting (batch : List (Nat × String × String)) (acts : List Act) :
    (run (init batch) acts).semAvail + execCount (run (init batch) acts) = 3 ∧
    ∀ r, (isExecuting ((run (init batch) acts).lanes r).phase = false ∧
            ∃ n, seFor (run (init batch) acts).trace r = rounds n)
      ∨ (isExecuting ((run (init batch) acts).lanes r).phase = true ∧
            ∃ n, seFor (run (init batch) acts).trace r = rounds n ++ [true]) := by
  have hinv := sysInv_reach batch acts
  exact ⟨by rw [execCount_eq]; exact hinv.sem_acct, hinv.se_alt⟩

/-- Claim C9: under the lane's validation of the category against the
registry, the panic branch of execute_task is unreachable: every
execute_task invocation made by a lane (every executeStart event of any
run) is for a registered category, on which execute_task returns
normally. -/
theorem c9_no_panic_from_lane (batch : List (Nat × String × String)) (acts : List Act)
    (r : String) (id : Nat) (c : String) (t : Nat)
    (hm : Event.executeStart r id c t ∈ (run (init batch) acts).trace) :
    ∃ out, execute_task c id r = some out := by
  have hinv := sysInv_reach batch acts
  have h1 := mem_startsFor_of_mem _ _ _ _ _ hm
  rw [hinv.starts_done r] at h1
  have h2 := List.of_mem_filter h1
  exact execute_task_total c id r h2

/-- Witness for C9 on a concrete run. -/
theorem c9_witness : ∃ out, execute_task "feed_the_cat" 1 "Dave" = some out :=
  c9_no_panic_from_lane oneFeedBatch oneFeedActs "Dave" 1 "feed_the_cat" 0 (by decide)

/-- Claim C10: the result of execute_task depends only on the task name,
never on the job id or the robot name: the three registered names return
their fixed strings for all ids and robots, and for any name the result
is identical across any two (id, robot) pairs. -/
theorem c10_result_depends_only_on_task :
    (∀ (id : Nat) (r : String), execute_task "clean_the_windows" id r = some "Squeeesh") ∧
    (∀ (id : Nat) (r : String), execute_task "water_the_plants" id r = some "Blub") ∧
    (∀ (id : Nat) (r : String), execute_task "feed_the_cat" id r = some "Meow") ∧
    ∀ (c : String) (id₁ : Nat) (r₁ : String) (id₂ : Nat) (r₂ : String),
      execute_task c id₁ r₁ = execute_task c id₂ r₂ := by
  refine ⟨fun id r => rfl, fun id r => rfl, fun id r => rfl, ?_⟩
  intro c id₁ r₁ id₂ r₂
  unfold execute_task
  split_ifs <;> rfl
